import Mathlib

/-
Formal model of the ETL pipeline in `src/fin_python_v2.py`
(validation, idempotent load, aggregation, and the date-range gate),
together with proofs of the specified properties.

Conventions of the embedding:
* Python values arriving from decoded JSON are modelled by the inductive
  type `Json` below.  JSON booleans are kept; where the source compares
  them with `0`/`1` (Python `True == 1`, `False == 0`) the model applies
  that equality explicitly.
* `sys.exit(1)` and an uncaught exception escaping a function are
  modelled by the outcome type `Proc`: `Proc.ok` means the function
  returns and the process continues, `Proc.exit1` is a direct
  `sys.exit(1)`, and `Proc.crash` is an exception that escapes the
  function (the top-level handler of the script then exits 1).
* `json.loads` is modelled by `jsonLoads`, a parser for the JSON subset
  these records use: flat or nested objects and arrays whose scalars are
  strings without escape sequences, integer numerals, booleans and null.
  A failure of `jsonLoads` models `json.JSONDecodeError`, which is a
  subclass of `ValueError` in Python.
* Machine integers do not overflow anywhere in the source (record counts
  and calendar arithmetic), so `Nat` and `Int` are used directly; the
  float arithmetic of the aggregator is modelled by the exact rational
  type `Frac` below.
-/

/-- A decoded JSON value (the result of `json.loads`). -/
inductive Json where
  | null
  | bool (b : Bool)
  | num (n : Int)
  | str (s : String)
  | arr (elems : List Json)
  | obj (members : List (String × Json))
deriving Repr

/-- Process outcome of a source function: normal return, `sys.exit(1)`,
or an exception escaping the function. -/
inductive Proc (α : Type) where
  | ok (a : α)
  | exit1
  | crash
deriving Repr, DecidableEq

/-- The double-quote character, written via its code point. -/
def quoteChar : Char := Char.ofNat 34

/-- The single-quote character, written via its code point. -/
def squoteChar : Char := Char.ofNat 39

/-- Opening brace character. -/
def lbraceChar : Char := Char.ofNat 123

/-- Closing brace character. -/
def rbraceChar : Char := Char.ofNat 125

/-- Opening bracket character. -/
def lbrackChar : Char := Char.ofNat 91

/-- Closing bracket character. -/
def rbrackChar : Char := Char.ofNat 93

/-- JSON whitespace. -/
def isWsChar (c : Char) : Bool :=
  c == ' ' || c == '\t' || c == '\n' || c == '\r'

/-- Drop leading whitespace. -/
def skipWs : List Char → List Char
  | [] => []
  | c :: rest => if isWsChar c then skipWs rest else c :: rest

/-- Read a string body after an opening quote, up to the closing quote.
Escape sequences are not modelled (the records this pipeline consumes
contain none; moreover the source has already replaced every single
quote by a double quote, destroying any escape discipline). -/
def takeStr (cs : List Char) : Option (String × List Char) :=
  let body := cs.takeWhile (fun c => !(c == quoteChar))
  match cs.dropWhile (fun c => !(c == quoteChar)) with
  | [] => none
  | _ :: r => some (String.mk body, r)

/-- Read a nonempty run of decimal digits. -/
def takeNat (cs : List Char) : Option (Nat × List Char) :=
  let ds := cs.takeWhile Char.isDigit
  let rest := cs.dropWhile Char.isDigit
  if ds.isEmpty then none
  else some (ds.foldl (fun a c => a * 10 + (c.toNat - 48)) 0, rest)

/-- Read an optionally signed integer numeral. -/
def takeNum (cs : List Char) : Option (Int × List Char) :=
  match cs with
  | [] => none
  | c :: rest =>
    if c == '-' then
      (takeNat rest).map (fun p => (-(p.1 : Int), p.2))
    else
      (takeNat cs).map (fun p => ((p.1 : Int), p.2))

/-- CPython `dict` item assignment: an existing key keeps its position and
gets the new value, a new key is appended at the end. -/
def dictInsert (acc : List (String × Json)) (k : String) (v : Json) :
    List (String × Json) :=
  if acc.any (fun p => p.1 == k) then
    acc.map (fun p => if p.1 == k then (k, v) else p)
  else acc ++ [(k, v)]

mutual

/-- Parse one JSON value.  The fuel argument only bounds recursion depth;
`jsonLoads` supplies more fuel than any input can consume. -/
def parseVal : Nat → List Char → Option (Json × List Char)
  | 0, _ => none
  | Nat.succ fuel, cs =>
    match skipWs cs with
    | [] => none
    | c :: rest =>
      if c == quoteChar then
        match takeStr rest with
        | some (s, r) => some (Json.str s, r)
        | none => none
      else if c == lbraceChar then
        parseObjBody fuel rest []
      else if c == lbrackChar then
        parseArrBody fuel rest []
      else
        match c :: rest with
        | 'n' :: 'u' :: 'l' :: 'l' :: r => some (Json.null, r)
        | 't' :: 'r' :: 'u' :: 'e' :: r => some (Json.bool true, r)
        | 'f' :: 'a' :: 'l' :: 's' :: 'e' :: r => some (Json.bool false, r)
        | cs2 =>
          match takeNum cs2 with
          | some (n, r) => some (Json.num n, r)
          | none => none

/-- Parse the members of an object, after the opening brace or a comma. -/
def parseObjBody : Nat → List Char → List (String × Json) →
    Option (Json × List Char)
  | 0, _, _ => none
  | Nat.succ fuel, cs, acc =>
    match skipWs cs with
    | [] => none
    | c :: rest =>
      if c == rbraceChar then
        if acc.isEmpty then some (Json.obj acc, rest) else none
      else if c == quoteChar then
        match takeStr rest with
        | none => none
        | some (k, r1) =>
          match skipWs r1 with
          | [] => none
          | c2 :: r2 =>
            if c2 == ':' then
              match parseVal fuel r2 with
              | none => none
              | some (v, r3) =>
                match skipWs r3 with
                | [] => none
                | c3 :: r4 =>
                  if c3 == ',' then parseObjBody fuel r4 (dictInsert acc k v)
                  else if c3 == rbraceChar then
                    some (Json.obj (dictInsert acc k v), r4)
                  else none
            else none
      else none

/-- Parse the elements of an array, after the opening bracket or a comma. -/
def parseArrBody : Nat → List Char → List Json → Option (Json × List Char)
  | 0, _, _ => none
  | Nat.succ fuel, cs, acc =>
    match skipWs cs with
    | [] => none
    | c :: rest =>
      if c == rbrackChar then
        if acc.isEmpty then some (Json.arr acc, rest) else none
      else
        match parseVal fuel (c :: rest) with
        | none => none
        | some (v, r1) =>
          match skipWs r1 with
          | [] => none
          | c2 :: r2 =>
            if c2 == ',' then parseArrBody fuel r2 (acc ++ [v])
            else if c2 == rbrackChar then some (Json.arr (acc ++ [v]), r2)
            else none

end

/-- Model of Python `json.loads` on the JSON subset described in the
header comment.  `none` models `json.JSONDecodeError` (a `ValueError`). -/
def jsonLoads (s : String) : Option Json :=
  match parseVal (s.length + 1) s.toList with
  | some (j, rest) => if (skipWs rest).isEmpty then some j else none
  | none => none

/-- The quote substitution `passback_params.replace(squote, dquote)`
performed by `validate_data` before parsing.  For a single-character
pattern, Python `str.replace` is exactly a character map. -/
def pyNormalizeQuotes (s : String) : String :=
  String.mk (s.toList.map (fun c => if c == squoteChar then quoteChar else c))

/-- A raw record of the API payload: a Python dict in which each of the
five relevant keys may be absent (`none`) or carry any JSON value. -/
structure RawRecord where
  lti_user_id : Option Json
  passback_params : Option Json
  is_correct : Option Json
  attempt_type : Option Json
  created_at : Option Json
deriving Repr

/-- A validated, canonical attempt record (an element of the list that
`validate_data` returns). -/
structure Canonical where
  user_id : Option String
  oauth_consumer_key : Option String
  lis_result_sourcedid : Option String
  lis_outcome_service_url : Option String
  is_correct : Option Int
  attempt_type : String
  created_at : String
deriving Repr, DecidableEq

/-- Fate of one record inside the validation loop: canonicalized,
rejected with a logged `ValueError`, or an exception of another class
(which the loop's `except ValueError` clause does not catch). -/
inductive CheckResult where
  | ok (c : Canonical)
  | reject
  | crash
deriving Repr, DecidableEq

/-- Check `lti_user_id must be a string or None`; on success produce the
canonical `user_id`. -/
def uidValue : Json → Option (Option String)
  | Json.null => some none
  | Json.str s => some (some s)
  | _ => none

/-- Check `is_correct in (0, 1, None)`; on success produce the canonical
value.  Python `True == 1` and `False == 0`, so booleans pass the
membership test and behave like the corresponding integer downstream. -/
def isCorrectValue : Json → Option (Option Int)
  | Json.null => some none
  | Json.num n => if n == 0 then some (some 0)
                  else if n == 1 then some (some 1)
                  else none
  | Json.bool b => some (some (if b then 1 else 0))
  | _ => none

/-- Is the value a string or null (the requirement on every value of the
decoded `passback_params` mapping)? -/
def isStrOrNull : Json → Bool
  | Json.null => true
  | Json.str _ => true
  | _ => false

/-- `dict.get` on the decoded mapping, keeping only string values (the
extracted sub-fields default to `None` when absent or null). -/
def pbGet (kvs : List (String × Json)) (k : String) : Option String :=
  match kvs.find? (fun p => p.1 == k) with
  | some (_, Json.str s) => some s
  | _ => none

/-- Fate of the `passback_params` processing step. -/
inductive PbResult where
  | ok (oauth_consumer_key lis_result_sourcedid lis_outcome_service_url :
      Option String)
  | reject
  | crash
deriving Repr, DecidableEq

/-- Processing of a string-valued `passback_params` (lines 127-139):
the string is quote-normalized and parsed; a decode error is a
rejection (`json.JSONDecodeError` is a `ValueError`); a decoded
mapping must have only string-or-null values; a decoded non-mapping
makes `.values()` raise `AttributeError`, which `except ValueError`
does not catch. -/
def passbackOfString (s : String) : PbResult :=
  match jsonLoads (pyNormalizeQuotes s) with
  | none => PbResult.reject
  | some (Json.obj kvs) =>
    if kvs.any (fun p => !(isStrOrNull p.2)) then PbResult.reject
    else
      PbResult.ok (pbGet kvs ("oauth_consumer_key"))
        (pbGet kvs ("lis_result_sourcedid"))
        (pbGet kvs ("lis_outcome_service_url"))
  | some _ => PbResult.crash

/-- The `passback_params` step of `validate_data` (lines 122-144):
`None` yields three null fields; a non-string, non-null value is
rejected; a string is processed by `passbackOfString`. -/
def passbackFields : Json → PbResult
  | Json.null => PbResult.ok none none none
  | Json.str s => passbackOfString s
  | _ => PbResult.reject

/-- The value checks of the validation loop, applied once all five
required fields are present: `lti_user_id`, `is_correct`,
`passback_params`, and the string checks on `attempt_type` and
`created_at`, in source order.  Every explicit `raise ValueError` is a
`reject`. -/
def checkFields (uid pb ic att ca : Json) : CheckResult :=
  match uidValue uid with
  | none => CheckResult.reject
  | some user_id =>
    match isCorrectValue ic with
    | none => CheckResult.reject
    | some is_correct =>
      match passbackFields pb with
      | PbResult.crash => CheckResult.crash
      | PbResult.reject => CheckResult.reject
      | PbResult.ok ock lrs losu =>
        match att, ca with
        | Json.str attempt_type, Json.str created_at =>
          CheckResult.ok
            ⟨user_id, ock, lrs, losu, is_correct, attempt_type, created_at⟩
        | _, _ => CheckResult.reject

/-- The per-record body of the validation loop (lines 99-163): the
presence check for the five required fields (a missing field is a
rejection), then the value checks. -/
def checkRecord (row : RawRecord) : CheckResult :=
  match row.lti_user_id, row.passback_params, row.is_correct,
      row.attempt_type, row.created_at with
  | some uid, some pb, some ic, some att, some ca =>
    checkFields uid pb ic att ca
  | _, _, _, _, _ => CheckResult.reject

/-- The validation loop: rejected records are skipped (only logged), a
crash propagates immediately, accepted records are collected in order. -/
def collectValidated : List RawRecord → Option (List Canonical)
  | [] => some []
  | r :: rest =>
    match checkRecord r with
    | CheckResult.crash => none
    | CheckResult.reject => collectValidated rest
    | CheckResult.ok c => (collectValidated rest).map (fun l => c :: l)

/-- `validate_data` (lines 94-173): an empty batch is falsy, so the
guard `... if data else sys.exit(1)` exits immediately; otherwise the
loop runs and the batch succeeds only when every record was kept
(`len(validated_data) == len(data)`). -/
def validateData (data : List RawRecord) : Proc (List Canonical) :=
  if data.isEmpty then Proc.exit1
  else
    match collectValidated data with
    | none => Proc.crash
    | some vd => if vd.length = data.length then Proc.ok vd else Proc.exit1

/-- SQL three-valued semantics of the dedup predicate
`(user_id = %s or user_id is Null) AND created_at = %s` issued by
`load_data_to_db` (lines 260-265): `=` against a NULL parameter or a
NULL column is unknown (not satisfied), `user_id is Null` tests the
stored row. -/
def sqlWhere (row rec : Canonical) : Bool :=
  ((match row.user_id, rec.user_id with
    | some a, some b => a == b
    | _, _ => false) || row.user_id.isNone)
  && row.created_at == rec.created_at

/-- `SELECT COUNT(*)` over the target table for one record's dedup
query.  The surrogate key of a stored row never participates in any
query, so a table is modelled as the list of its rows' seven canonical
fields, in insertion order. -/
def dedupCount (tbl : List Canonical) (rec : Canonical) : Nat :=
  tbl.countP (fun row => sqlWhere row rec)

/-- The loading loop of `load_data_to_db` (lines 257-286): for each
record, count matching rows, add that count to `skipped_count`, and
insert the record only when the count is zero.  Inserts are visible to
the dedup queries of the records that follow in the same batch. -/
def loadBatch : List Canonical → Nat → List Canonical → List Canonical × Nat
  | tbl, skipped, [] => (tbl, skipped)
  | tbl, skipped, rec :: rest =>
    loadBatch (if dedupCount tbl rec = 0 then tbl ++ [rec] else tbl)
      (skipped + dedupCount tbl rec) rest

/-- `load_data_to_db` (lines 254-295) with fault injection: `failAt =
some k` (with `k` in range) makes the query for the `k`-th record raise
`psycopg2.Error`.  The handler logs the error and returns normally, so
the outcome is always `Proc.ok`; on the failure path the final commit is
never reached and the committed table is unchanged (the function returns
`None` in Python either way, so the payload on that path carries the
unchanged table and a zero count). -/
def loadDataToDb (failAt : Option Nat) (tbl : List Canonical)
    (vdata : List Canonical) : Proc (List Canonical × Nat) :=
  match failAt with
  | some k =>
    if k < vdata.length then Proc.ok (tbl, 0)
    else Proc.ok (loadBatch tbl 0 vdata)
  | none => Proc.ok (loadBatch tbl 0 vdata)

/-- `Database.__init__` (lines 182-191): a connection failure is logged
and followed by `sys.exit(1)`. -/
def databaseInit (connectOk : Bool) : Proc Unit :=
  if connectOk then Proc.ok () else Proc.exit1

/-- `Database.create_table` (lines 216-252) with fault injection: any
`psycopg2.Error` during the existence check or the creation is caught
and logged, and the method returns normally; otherwise the table is
created only if absent. -/
def createTable (queryFails : Bool) (tables : List String) (name : String) :
    Proc (List String) :=
  if queryFails then Proc.ok tables
  else if tables.contains name then Proc.ok tables
  else Proc.ok (tables ++ [name])

/-- Python `str.split(sep)` for a one-character separator: fields
between occurrences of the separator, empty fields kept. -/
def pySplitChar : List Char → Char → List (List Char)
  | [], _ => [[]]
  | c :: rest, sep =>
    match pySplitChar rest sep with
    | [] => [[c]]
    | h :: t => if c == sep then [] :: h :: t else (c :: h) :: t

/-- Hour token extraction `time.split(space)[1].split(colon)[0]`
(line 335): `none` models the `IndexError` raised when the timestamp
contains no space.  The inner `[0]` always exists, `split` never
returning an empty list. -/
def hourOf (time : String) : Option String :=
  match (pySplitChar time.toList ' ').get? 1 with
  | none => none
  | some t => some (String.mk ((pySplitChar t ':').headD []))

/-- The four running totals of `calc_for_gsheets` (lines 312-328). -/
structure Counters where
  allAttempts : Nat
  runAttempts : Nat
  submits : Nat
  succSubmits : Nat
deriving Repr, DecidableEq

/-- Initial totals. -/
def initCounters : Counters := ⟨0, 0, 0, 0⟩

/-- Per-user activity lists, a `dict` in insertion order of first
occurrence, each value the list of `[created_at, is_correct]` pairs. -/
abbrev UsersActs : Type := List (String × List (String × Option Int))

/-- Per-hour tallies, a `dict` in insertion order of first occurrence. -/
abbrev TimeD : Type := List (String × Nat)

/-- `users_acts[user] = users_acts.get(user, []) + [[created_at,
is_correct]]` (lines 330-332). -/
def dictAppendAct (ua : UsersActs) (u : String) (act : String × Option Int) :
    UsersActs :=
  if ua.any (fun p => p.1 == u) then
    ua.map (fun p => if p.1 == u then (p.1, p.2 ++ [act]) else p)
  else ua ++ [(u, [act])]

/-- The per-hour tally update (lines 336-339). -/
def bumpHour (td : TimeD) (h : String) : TimeD :=
  if td.any (fun p => p.1 == h) then
    td.map (fun p => if p.1 == h then (p.1, p.2 + 1) else p)
  else td ++ [(h, 1)]

/-- The aggregation loop of `calc_for_gsheets` (lines 322-339): records
with a null `user_id` are skipped entirely; for the rest the totals,
the per-user activity dict and the per-hour tally are updated.  `none`
models the `IndexError` of the hour extraction escaping the loop into
the function's blanket handler. -/
def calcLoop : List Canonical → Counters × UsersActs × TimeD →
    Option (Counters × UsersActs × TimeD)
  | [], st => some st
  | row :: rest, (cnt, ua, td) =>
    match row.user_id with
    | none => calcLoop rest (cnt, ua, td)
    | some user =>
      let cnt' : Counters :=
        { allAttempts := cnt.allAttempts + 1
          runAttempts := cnt.runAttempts +
            (if row.is_correct = none then 1 else 0)
          submits := cnt.submits + (if row.is_correct ≠ none then 1 else 0)
          succSubmits := cnt.succSubmits +
            (if row.is_correct = some 1 then 1 else 0) }
      let ua' := dictAppendAct ua user (row.created_at, row.is_correct)
      match hourOf row.created_at with
      | none => none
      | some h => calcLoop rest (cnt', ua', bumpHour td h)

/-- The running fold of Python `max(time_d, key=time_d.get)`: the
current best is replaced only by a strictly greater tally, so the first
encountered maximum wins. -/
def pyMaxRun : (String × Nat) → List (String × Nat) → String × Nat
  | best, [] => best
  | best, p :: rest => pyMaxRun (if best.2 < p.2 then p else best) rest

/-- Python `max(time_d, key=time_d.get)` over the tally dict (line 346);
`none` models the `ValueError` raised on an empty dict. -/
def pyMaxKey : List (String × Nat) → Option (String × Nat)
  | [] => none
  | p :: rest => some (pyMaxRun p rest)

/-- Euclid's algorithm with explicit fuel (the fuel bounds the number
of steps; `natGcd` supplies enough for any input). -/
def natGcdAux : Nat → Nat → Nat → Nat
  | 0, _, y => y
  | Nat.succ fuel, x, y => if x = 0 then y else natGcdAux fuel (y % x) x

/-- Greatest common divisor.  Each Euclid step strictly decreases the
first component, so `x + 1` steps always suffice. -/
def natGcd (x y : Nat) : Nat := natGcdAux (x + 1) x y

/-- An exact rational number, canonically reduced by construction via
`mkFrac`.  The arithmetic this program performs on Python floats
(ratios of small counts, times 100, rounded to 1 or 2 decimal places)
is exact on every value it ever produces, so exact rationals model it
faithfully; binary floating-point representation effects are out of
scope of the model. -/
structure Frac where
  num : Int
  den : Nat
deriving Repr, DecidableEq

/-- Build the canonical reduced representation (the denominator of
every fraction built by the model is positive). -/
def mkFrac (n : Int) (d : Nat) : Frac :=
  let g := natGcd n.natAbs d
  ⟨n / (g : Int), d / g⟩

/-- Embed a count. -/
def natFrac (n : Nat) : Frac := ⟨(n : Int), 1⟩

/-- Multiplication. -/
def fracMul (a b : Frac) : Frac := mkFrac (a.num * b.num) (a.den * b.den)

/-- Addition. -/
def fracAdd (a b : Frac) : Frac :=
  mkFrac (a.num * (b.den : Int) + b.num * (a.den : Int)) (a.den * b.den)

/-- Subtraction. -/
def fracSub (a b : Frac) : Frac :=
  mkFrac (a.num * (b.den : Int) - b.num * (a.den : Int)) (a.den * b.den)

/-- Division (the divisors this program uses are positive; the general
sign case is handled anyway). -/
def fracDiv (a b : Frac) : Frac :=
  if 0 ≤ b.num then mkFrac (a.num * (b.den : Int)) (a.den * b.num.toNat)
  else mkFrac (-(a.num * (b.den : Int))) (a.den * (-b.num).toNat)

/-- Strict comparison (denominators are positive by construction). -/
def fracLt (a b : Frac) : Bool :=
  a.num * (b.den : Int) < b.num * (a.den : Int)

/-- Floor. -/
def fracFloor (a : Frac) : Int := Int.fdiv a.num (a.den : Int)

/-- Round-half-to-even of a rational to an integer (the rounding of
CPython `round`). -/
def roundHalfToEven (q : Frac) : Int :=
  let f := fracFloor q
  if fracLt (fracSub q ⟨f, 1⟩) ⟨1, 2⟩ then f
  else if fracLt ⟨1, 2⟩ (fracSub q ⟨f, 1⟩) then f + 1
  else if f % 2 = 0 then f else f + 1

/-- Python `round(q, nd)`. -/
def pyRound (q : Frac) (nd : Nat) : Frac :=
  mkFrac (roundHalfToEven (fracMul q ⟨((10 : Nat) ^ nd : Int), 1⟩)) ((10 : Nat) ^ nd)

/-- `statistics.mean`; its caller must guard the empty list (Python
raises `StatisticsError` there). -/
def fracMean (l : List Frac) : Frac :=
  fracDiv (l.foldl fracAdd ⟨0, 1⟩) (natFrac l.length)

/-- The per-user summary `[len, run-attempts, submits, successful]`
(lines 350-358). -/
def userSummary (acts : List (String × Option Int)) : Nat × Nat × Nat × Nat :=
  (acts.length,
   (acts.filter (fun a => a.2.isNone)).length,
   (acts.filter (fun a => !a.2.isNone)).length,
   (acts.filter (fun a => a.2 == some 1)).length)

/-- The aggregate report built by `calc_for_gsheets`. -/
structure GsResult where
  allAttempts : Nat
  runAttempts : Nat
  submits : Nat
  succSubmits : Nat
  percentSucc : Frac
  uniqueUsers : Nat
  maxHour : String
  avgAttempts : Frac
  avgRuns : Frac
  avgSubmits : Frac
  avgSuccSubmits : Frac
deriving Repr, DecidableEq

/-- The report-building tail of `calc_for_gsheets` (lines 341-372),
applied to the state the loop accumulated.  The three exception sites
are, in source order, the `ZeroDivisionError` of the percent
computation when `submits = 0`, the `ValueError` of `max` on an empty
tally, and the `StatisticsError` of `mean` over no users; each is
caught by the function's blanket handler, modelled by `none`. -/
def buildReport (cnt : Counters) (ua : UsersActs) (td : TimeD) :
    Option GsResult :=
  if cnt.submits = 0 then none
  else
    match pyMaxKey td with
    | none => none
    | some best =>
      if ua.isEmpty then none
      else
        let sums := ua.map (fun p => userSummary p.2)
        some
            { allAttempts := cnt.allAttempts
              runAttempts := cnt.runAttempts
              submits := cnt.submits
              succSubmits := cnt.succSubmits
              percentSucc := pyRound
                (fracMul (fracDiv (natFrac cnt.succSubmits)
                  (natFrac cnt.submits)) (natFrac 100)) 2
              uniqueUsers := ua.length
              maxHour := best.1
              avgAttempts := pyRound
                (fracMean (sums.map (fun s => natFrac s.1))) 1
              avgRuns := pyRound
                (fracMean (sums.map (fun s => natFrac s.2.1))) 1
              avgSubmits := pyRound
                (fracMean (sums.map (fun s => natFrac s.2.2.1))) 1
              avgSuccSubmits := pyRound
                (fracMean (sums.map (fun s => natFrac s.2.2.2))) 1 }

/-- `calc_for_gsheets` (lines 310-375): the whole body runs under a
blanket `except Exception` that logs and returns `None`; the loop over
the records accumulates the state, then the report is built from it. -/
def calc_for_gsheets (data : List Canonical) : Option GsResult :=
  match calcLoop data (initCounters, [], []) with
  | none => none
  | some (cnt, ua, td) => buildReport cnt ua td

/-- Does a date string match the regular expression
`^\d{4}-\d{2}-\d{2}$` of `get_data` (lines 57-59)? -/
def matchesDateRe (s : String) : Bool :=
  match s.toList with
  | [c1, c2, c3, c4, h1, c5, c6, h2, c7, c8] =>
    c1.isDigit && c2.isDigit && c3.isDigit && c4.isDigit && h1 == '-' &&
    c5.isDigit && c6.isDigit && h2 == '-' && c7.isDigit && c8.isDigit
  | _ => false

/-- Numeric value of a decimal digit character. -/
def digitVal (c : Char) : Nat := c.toNat - 48

/-- Gregorian leap year. -/
def isLeapYear (y : Nat) : Bool :=
  y % 4 == 0 && (y % 100 != 0 || y % 400 == 0)

/-- Length of a month. -/
def daysInMonth (y m : Nat) : Nat :=
  if m == 2 then (if isLeapYear y then 29 else 28)
  else if m == 4 || m == 6 || m == 9 || m == 11 then 30
  else 31

/-- `datetime.strptime(s, percentY-percentm-percentd)` as an
Option-valued function: the shape must be `YYYY-MM-DD` and the fields must form a
valid proleptic Gregorian date with year at least 1 (else Python raises
`ValueError`). -/
def strptimeYmd (s : String) : Option (Nat × Nat × Nat) :=
  match s.toList with
  | [c1, c2, c3, c4, h1, c5, c6, h2, c7, c8] =>
    if c1.isDigit && c2.isDigit && c3.isDigit && c4.isDigit && h1 == '-' &&
        c5.isDigit && c6.isDigit && h2 == '-' && c7.isDigit && c8.isDigit then
      let y := ((digitVal c1 * 10 + digitVal c2) * 10 + digitVal c3) * 10 +
        digitVal c4
      let m := digitVal c5 * 10 + digitVal c6
      let d := digitVal c7 * 10 + digitVal c8
      if 1 ≤ y && 1 ≤ m && m ≤ 12 && 1 ≤ d && d ≤ daysInMonth y m then
        some (y, m, d)
      else none
    else none
  | _ => none

/-- Days in the months of `y` before month `m`. -/
def daysBeforeMonth (y m : Nat) : Nat :=
  (List.range (m - 1)).foldl (fun a i => a + daysInMonth y (i + 1)) 0

/-- `datetime.toordinal`: day number of a date in the proleptic
Gregorian calendar.  Dates compare (and subtract, via `timedelta.days`)
as their ordinals. -/
def dateOrdinal (ymd : Nat × Nat × Nat) : Nat :=
  365 * (ymd.1 - 1) + (ymd.1 - 1) / 4 - (ymd.1 - 1) / 100 +
    (ymd.1 - 1) / 400 + daysBeforeMonth ymd.1 ymd.2.1 + ymd.2.2

/-- The query parameters `get_data` sends to the statistics API
(lines 77-82). -/
structure ApiRequest where
  client : String
  client_key : String
  start : String
  finish : String
deriving Repr, DecidableEq

/-- The request constructed for a given date window (the source key of
the last field is `end`, a Lean keyword). -/
def apiRequest (s f : String) : ApiRequest :=
  ⟨("Skillfactory"), ("M2MGWS"), s ++ (" 00:00:00.0"),
    f ++ (" 23:59:59.999999")⟩

/-- The date-range gate of `get_data` (lines 56-91), up to the point of
issuing the network request: format check, `strptime` parsing, order
check, and the 6-day span check, each failure reaching the
`except Exception` clause that logs and calls `sys.exit(1)`.
`Proc.ok r` means the request `r` is issued to the API. -/
def getData (start_day finish_day : String) : Proc ApiRequest :=
  if !(matchesDateRe start_day && matchesDateRe finish_day) then Proc.exit1
  else
    match strptimeYmd start_day, strptimeYmd finish_day with
    | some ds, some df =>
      if dateOrdinal df < dateOrdinal ds then Proc.exit1
      else if 6 < dateOrdinal df - dateOrdinal ds then Proc.exit1
      else Proc.ok (apiRequest start_day finish_day)
    | _, _ => Proc.exit1

/-- The conjunction of the conditions the date gate enforces: both
bounds well-formed and parseable, start not after finish, span at most
6 days. -/
def dateGatePass (s f : String) : Bool :=
  matchesDateRe s && matchesDateRe f &&
    (match strptimeYmd s, strptimeYmd f with
     | some ds, some df =>
       decide (dateOrdinal ds ≤ dateOrdinal df) &&
         decide (dateOrdinal df - dateOrdinal ds ≤ 6)
     | _, _ => false)

/-- A raw record passing every check: string user, null
`passback_params`, graded attempt. -/
def demoRawGood : RawRecord :=
  { lti_user_id := some (Json.str ("u1"))
    passback_params := some Json.null
    is_correct := some (Json.num 1)
    attempt_type := some (Json.str ("submit"))
    created_at := some (Json.str ("2024-05-01 10:00:00")) }

/-- A raw record with `is_correct = 2`, which fails check 3. -/
def demoRawBadIsCorrect : RawRecord :=
  { lti_user_id := some (Json.str ("u2"))
    passback_params := some Json.null
    is_correct := some (Json.num 2)
    attempt_type := some (Json.str ("submit"))
    created_at := some (Json.str ("2024-05-01 11:00:00")) }

/-- The two-record batch of the end-to-end validation scenario. -/
def demoBatch2 : List RawRecord := [demoRawGood, demoRawBadIsCorrect]

/-- A raw record whose `passback_params` decodes to the JSON number 42 —
valid JSON, but not a mapping. -/
def demoRawScalarPb : RawRecord :=
  { lti_user_id := some (Json.str ("u3"))
    passback_params := some (Json.str ("42"))
    is_correct := some Json.null
    attempt_type := some (Json.str ("run"))
    created_at := some (Json.str ("2024-05-01 12:00:00")) }

/-- A canonical record with a non-null user. -/
def demoRec : Canonical :=
  ⟨some ("u1"), none, none, none, some 1, ("submit"), ("2024-05-01 10:00:00")⟩

/-- A stored row with user `u1` at time T. -/
def demoRowU1 : Canonical :=
  ⟨some ("u1"), none, none, none, some 1, ("submit"), ("2024-05-01 10:00:00")⟩

/-- A canonical record with a null user at the same time T. -/
def demoRecNullUser : Canonical :=
  ⟨none, none, none, none, some 0, ("run"), ("2024-05-01 10:00:00")⟩

/-- The three-record batch of the end-to-end aggregation scenario:
user `u1`, one run-attempt at 10:00, one successful submit at 10:30,
one failed submit at 11:00. -/
def demoAttempts : List Canonical :=
  [⟨some ("u1"), none, none, none, none, ("run"), ("2024-05-01 10:00:00")⟩,
   ⟨some ("u1"), none, none, none, some 1, ("submit"), ("2024-05-01 10:30:00")⟩,
   ⟨some ("u1"), none, none, none, some 0, ("submit"), ("2024-05-01 11:00:00")⟩]

/-- The report the aggregation scenario expects. -/
def demoReport : GsResult :=
  { allAttempts := 3
    runAttempts := 1
    submits := 2
    succSubmits := 1
    percentSucc := ⟨50, 1⟩
    uniqueUsers := 1
    maxHour := ("10")
    avgAttempts := ⟨3, 1⟩
    avgRuns := ⟨1, 1⟩
    avgSubmits := ⟨2, 1⟩
    avgSuccSubmits := ⟨1, 1⟩ }

/-- The checks of `validate_data` that precede the `passback_params`
step: presence of the five required fields, the `lti_user_id` type
check, and the `is_correct` membership check. -/
def earlyChecksPass (row : RawRecord) : Bool :=
  match row.lti_user_id, row.passback_params, row.is_correct,
      row.attempt_type, row.created_at with
  | some uid, some _, some ic, some _, some _ =>
    (uidValue uid).isSome && (isCorrectValue ic).isSome
  | _, _, _, _, _ => false

/-- C10: calling `validate` on an empty batch terminates the process
with exit status 1 before examining any record; the empty batch is
never a successful validation returning an empty sequence. -/
theorem validate_empty_batch_exits :
    validateData [] = Proc.exit1 := rfl

/-- C7: on the three-record batch for user `u1` — a run-attempt at
10:00, a successful submit at 10:30, a failed submit at 11:00 — the
aggregation reports all attempts 3, run-attempts 1, submits 2,
successful submits 1, percent successful 50.0, unique users 1, peak
activity hour `10`, and average attempts per user 3.0 (the remaining
per-user averages being 1.0, 2.0 and 1.0). -/
theorem aggregate_demo_batch :
    calc_for_gsheets demoAttempts = some demoReport := by decide

/-- C2 (counterexample): a canonical record with `user_id = null` and
`created_at = T` is NOT matched by an existing row with `user_id = u1`
and `created_at = T` — the dedup predicate is not satisfied and the
record is inserted (table grows, nothing skipped), where the claim says
it must be skipped as a duplicate. -/
theorem dedup_null_user_inserted_cx :
    sqlWhere demoRowU1 demoRecNullUser = false ∧
    loadDataToDb none [demoRowU1] [demoRecNullUser] =
      Proc.ok ([demoRowU1, demoRecNullUser], 0) := by
  exact ⟨rfl, rfl⟩

/-- C2 (amended): the dedup identity actually implemented is
asymmetric: a record matches an existing row iff their `created_at`
agree and either the EXISTING row's `user_id` is null, or both sides
carry the same non-null `user_id`.  A record whose own `user_id` is
null therefore matches only stored rows with null `user_id`. -/
theorem dedup_match_characterization (row rec : Canonical) :
    sqlWhere row rec = true ↔
      (row.created_at = rec.created_at ∧
        (row.user_id = none ∨
          ∃ u, row.user_id = some u ∧ rec.user_id = some u)) := by
  unfold sqlWhere
  cases hrow : row.user_id with
  | none =>
    cases hrec : rec.user_id <;>
      simp [Option.isNone, Bool.and_eq_true, beq_iff_eq, and_comm]
  | some a =>
    cases hrec : rec.user_id with
    | none => simp [Option.isNone, Bool.and_eq_true, beq_iff_eq, and_comm]
    | some b =>
      simp [Option.isNone, Bool.and_eq_true, beq_iff_eq, and_comm]
      exact fun _ => ⟨fun h => h.symm, fun h => h.symm⟩

/-- Closed instance of the dedup characterization at concrete rows. -/
theorem dedup_match_characterization_witness :
    sqlWhere demoRowU1 demoRec = true ↔
      (demoRowU1.created_at = demoRec.created_at ∧
        (demoRowU1.user_id = none ∨
          ∃ u, demoRowU1.user_id = some u ∧ demoRec.user_id = some u)) :=
  dedup_match_characterization demoRowU1 demoRec

/-- C4 (counterexample): a `psycopg2.Error` raised by the very first
dedup query of a load, and a query error during table creation, are
both caught and logged; the functions return normally (`Proc.ok`, the
pipeline continues and the process will exit 0), where the claim says
the run must abort with a non-zero exit. -/
theorem storage_query_error_continues_cx :
    loadDataToDb (some 0) [] [demoRec] = Proc.ok ([], 0) ∧
    createTable true [] ("ppf_2024_may") = Proc.ok [] := by
  exact ⟨rfl, rfl⟩

/-- C4 (amended): a storage connection failure is fatal (`sys.exit(1)`),
but query errors during table creation or loading are caught and
logged: those methods always return normally, and a load failure
(which precedes the single final commit) leaves the stored table
unchanged. -/
theorem storage_error_outcomes (failAt : Option Nat)
    (tbl recs : List Canonical) (ts : List String) (n : String) (k : Nat)
    (hk : k < recs.length) :
    databaseInit false = Proc.exit1 ∧
    databaseInit true = Proc.ok () ∧
    loadDataToDb (some k) tbl recs = Proc.ok (tbl, 0) ∧
    (∃ t s, loadDataToDb failAt tbl recs = Proc.ok (t, s)) ∧
    createTable true ts n = Proc.ok ts := by
  refine ⟨rfl, rfl, ?_, ?_, rfl⟩
  · unfold loadDataToDb
    simp [hk]
  · cases failAt with
    | none => exact ⟨(loadBatch tbl 0 recs).1, (loadBatch tbl 0 recs).2, rfl⟩
    | some k2 =>
      by_cases h : k2 < recs.length
      · exact ⟨tbl, 0, by unfold loadDataToDb; simp [h]⟩
      · exact ⟨(loadBatch tbl 0 recs).1, (loadBatch tbl 0 recs).2,
          by unfold loadDataToDb; simp [h]⟩

/-- Closed instance: the first query of a one-record load fails, the
call still returns normally with the table unchanged, while a
connection failure exits. -/
theorem storage_error_outcomes_witness :
    (0 < [demoRec].length) ∧
    loadDataToDb (some 0) ([] : List Canonical) [demoRec] =
      Proc.ok ([], 0) ∧
    databaseInit false = Proc.exit1 := by
  have h := storage_error_outcomes (some 0) ([] : List Canonical)
    [demoRec] [] ("t") 0 (by decide)
  exact ⟨by decide, h.2.2.1, h.1⟩

/-- C5 (counterexample): on a batch whose only record has a null
`user_id` (and on the empty batch) the aggregation does NOT return a
zero-totals report with a well-defined percent value: the
`ZeroDivisionError` of `submits = 0` is caught by the function's
blanket handler, which returns `None` — no report at all. -/
theorem aggregate_no_users_cx :
    calc_for_gsheets [demoRecNullUser] = none ∧
    calc_for_gsheets ([] : List Canonical) = none := by
  exact ⟨rfl, rfl⟩

/-- Records with a null `user_id` leave the aggregation state untouched. -/
theorem calcLoop_skip_all :
    ∀ (data : List Canonical), (∀ r ∈ data, r.user_id = none) →
      ∀ st, calcLoop data st = some st
  | [], _, st => rfl
  | r :: rest, h, st => by
    obtain ⟨cnt, ua, td⟩ := st
    have hr : r.user_id = none := h r (List.mem_cons_self r rest)
    unfold calcLoop
    rw [hr]
    exact calcLoop_skip_all rest
      (fun x hx => h x (List.mem_cons_of_mem r hx)) (cnt, ua, td)

/-- C5 (amended): on a batch with no identified users the totals
accumulated by the loop are all zero, and the aggregation does not
raise an uncaught arithmetic fault — the `ZeroDivisionError` of the
percent computation is caught by the function's blanket handler, which
logs it and returns `None` instead of a report. -/
theorem aggregate_no_identified_users (data : List Canonical)
    (h : ∀ r ∈ data, r.user_id = none) :
    calcLoop data (initCounters, [], []) = some (initCounters, [], []) ∧
    calc_for_gsheets data = none := by
  refine ⟨calcLoop_skip_all data h _, ?_⟩
  unfold calc_for_gsheets
  rw [calcLoop_skip_all data h]
  rfl

/-- Closed instance: the single-null-user batch aggregates to no
report with zero accumulated totals. -/
theorem aggregate_no_identified_users_witness :
    calcLoop [demoRecNullUser] (initCounters, [], []) =
      some (initCounters, [], []) ∧
    calc_for_gsheets [demoRecNullUser] = none :=
  aggregate_no_identified_users [demoRecNullUser]
    (by intro r hr; simp [demoRecNullUser] at hr; rw [hr])

/-- C9 (counterexample): a record whose `passback_params` string
decodes to valid JSON that is not a mapping (here the number `42`)
does not become a logged validation rejection: `.values()` raises an
`AttributeError`, which the loop's `except ValueError` does not catch,
so the exception escapes `validate_data` (the batch still dies, but as
a crash handled only by the script's top-level handler). -/
theorem passback_scalar_crash_cx :
    checkRecord demoRawScalarPb = CheckResult.crash ∧
    validateData [demoRawScalarPb] = Proc.crash := by
  exact ⟨rfl, rfl⟩

/-- The validation loop keeps at most one output per input record. -/
theorem collect_length_le :
    ∀ (d : List RawRecord) (l : List Canonical),
      collectValidated d = some l → l.length ≤ d.length
  | [], l, h => by
    obtain rfl : l = [] := by simpa [collectValidated] using h.symm
    simp
  | r :: rest, l, h => by
    unfold collectValidated at h
    cases hc : checkRecord r with
    | crash => rw [hc] at h; exact absurd h (by simp)
    | reject =>
      rw [hc] at h
      exact Nat.le_succ_of_le (collect_length_le rest l h)
    | ok c =>
      rw [hc] at h
      cases hr : collectValidated rest with
      | none => rw [hr] at h; exact absurd h (by simp)
      | some l2 =>
        rw [hr] at h
        obtain rfl : l = c :: l2 := by simpa using h.symm
        simpa using Nat.succ_le_succ (collect_length_le rest l2 hr)

/-- If no record makes the loop crash, the loop completes. -/
theorem collect_some_of_no_crash :
    ∀ (d : List RawRecord),
      (∀ r ∈ d, checkRecord r ≠ CheckResult.crash) →
      ∃ l, collectValidated d = some l
  | [], _ => ⟨[], rfl⟩
  | r :: rest, h => by
    obtain ⟨l2, hl2⟩ := collect_some_of_no_crash rest
      (fun x hx => h x (List.mem_cons_of_mem r hx))
    cases hc : checkRecord r with
    | crash => exact absurd hc (h r (List.mem_cons_self r rest))
    | reject => exact ⟨l2, by unfold collectValidated; rw [hc]; exact hl2⟩
    | ok c => exact ⟨c :: l2, by unfold collectValidated; rw [hc, hl2]; rfl⟩

/-- If every record passes its checks, the loop keeps all of them. -/
theorem collect_full_of_all_ok :
    ∀ (d : List RawRecord),
      (∀ r ∈ d, ∃ c, checkRecord r = CheckResult.ok c) →
      ∃ l, collectValidated d = some l ∧ l.length = d.length
  | [], _ => ⟨[], rfl, rfl⟩
  | r :: rest, h => by
    obtain ⟨l2, hl2, hlen⟩ := collect_full_of_all_ok rest
      (fun x hx => h x (List.mem_cons_of_mem r hx))
    obtain ⟨c, hc⟩ := h r (List.mem_cons_self r rest)
    refine ⟨c :: l2, ?_, by simp [hlen]⟩
    unfold collectValidated
    rw [hc, hl2]
    rfl

/-- A rejected record makes the kept list strictly shorter than the
batch. -/
theorem collect_lt_of_reject :
    ∀ (d : List RawRecord) (l : List Canonical) (r : RawRecord),
      r ∈ d → checkRecord r = CheckResult.reject →
      collectValidated d = some l → l.length < d.length
  | [], _, _, hr, _, _ => absurd hr (List.not_mem_nil _)
  | x :: rest, l, r, hr, hrej, h => by
    unfold collectValidated at h
    cases hc : checkRecord x with
    | crash => rw [hc] at h; exact absurd h (by simp)
    | reject =>
      rw [hc] at h
      exact Nat.lt_succ_of_le (collect_length_le rest l h)
    | ok c =>
      rw [hc] at h
      cases hx : collectValidated rest with
      | none => rw [hx] at h; exact absurd h (by simp)
      | some l2 =>
        rw [hx] at h
        obtain rfl : l = c :: l2 := by simpa using h.symm
        have hmem : r ∈ rest := by
          rcases List.mem_cons.mp hr with rfl | hm
          · rw [hrej] at hc; exact CheckResult.noConfusion hc
          · exact hm
        simpa using Nat.succ_lt_succ
          (collect_lt_of_reject rest l2 r hmem hrej hx)

/-- If the loop kept as many records as it was given, every record
passed its checks. -/
theorem collect_all_ok_of_full :
    ∀ (d : List RawRecord) (l : List Canonical),
      collectValidated d = some l → l.length = d.length →
      ∀ r ∈ d, ∃ c, checkRecord r = CheckResult.ok c
  | [], _, _, _, r, hr => absurd hr (List.not_mem_nil _)
  | x :: rest, l, h, hlen, r, hr => by
    unfold collectValidated at h
    cases hc : checkRecord x with
    | crash => rw [hc] at h; exact absurd h (by simp)
    | reject =>
      rw [hc] at h
      exfalso
      have h2 := collect_length_le rest l h
      simp [List.length_cons] at hlen
      omega
    | ok c =>
      rw [hc] at h
      cases hx : collectValidated rest with
      | none => rw [hx] at h; exact absurd h (by simp)
      | some l2 =>
        rw [hx] at h
        obtain rfl : l = c :: l2 := by simpa using h.symm
        rcases List.mem_cons.mp hr with rfl | hm
        · exact ⟨c, hc⟩
        · have hlen2 : l2.length = rest.length := by
            simp [List.length_cons] at hlen
            omega
          exact collect_all_ok_of_full rest l2 hx hlen2 r hm

/-- C1: for every non-empty batch, validate returns the full canonical
list iff every record passes its per-record checks (zero rejections);
any returned list has exactly one entry per input record (never a
shorter truncated result); and if at least one record is rejected (and
none crashes the loop) the whole call ends in `sys.exit(1)`. -/
theorem validate_all_or_nothing (d : List RawRecord) (hne : d ≠ []) :
    ((∃ l, validateData d = Proc.ok l) ↔
      ∀ r ∈ d, ∃ c, checkRecord r = CheckResult.ok c) ∧
    (∀ l, validateData d = Proc.ok l → l.length = d.length) ∧
    (((∃ r ∈ d, checkRecord r = CheckResult.reject) ∧
        ∀ r ∈ d, checkRecord r ≠ CheckResult.crash) →
      validateData d = Proc.exit1) := by
  have hne2 : d.isEmpty = false := by
    cases d with
    | nil => exact absurd rfl hne
    | cons x xs => rfl
  refine ⟨⟨?_, ?_⟩, ?_, ?_⟩
  · rintro ⟨l, hl⟩
    unfold validateData at hl
    rw [if_neg (by simp [hne2])] at hl
    cases hx : collectValidated d with
    | none => rw [hx] at hl; exact absurd hl (by simp)
    | some vd =>
      rw [hx] at hl
      have hl2 : (if vd.length = d.length then Proc.ok vd else Proc.exit1) =
          Proc.ok l := hl
      by_cases hlen : vd.length = d.length
      · exact collect_all_ok_of_full d vd hx hlen
      · rw [if_neg hlen] at hl2; exact absurd hl2 (by simp)
  · intro hall
    obtain ⟨l, hsome, hlen⟩ := collect_full_of_all_ok d hall
    refine ⟨l, ?_⟩
    unfold validateData
    rw [if_neg (by simp [hne2]), hsome]
    show (if l.length = d.length then Proc.ok l else Proc.exit1) = Proc.ok l
    rw [if_pos hlen]
  · intro l hl
    unfold validateData at hl
    rw [if_neg (by simp [hne2])] at hl
    cases hx : collectValidated d with
    | none => rw [hx] at hl; exact absurd hl (by simp)
    | some vd =>
      rw [hx] at hl
      have hl2 : (if vd.length = d.length then Proc.ok vd else Proc.exit1) =
          Proc.ok l := hl
      by_cases hlen : vd.length = d.length
      · have hvd : vd = l := by rw [if_pos hlen] at hl2; simpa using hl2
        rw [← hvd]
        exact hlen
      · rw [if_neg hlen] at hl2; exact absurd hl2 (by simp)
  · rintro ⟨⟨r, hmem, hrej⟩, hnc⟩
    obtain ⟨l, hsome⟩ := collect_some_of_no_crash d hnc
    have hlt := collect_lt_of_reject d l r hmem hrej hsome
    unfold validateData
    rw [if_neg (by simp [hne2]), hsome]
    show (if l.length = d.length then Proc.ok l else Proc.exit1) = Proc.exit1
    rw [if_neg (by omega)]

/-- Closed instance: the two-record batch in which one record carries
`is_correct = 2` fails as a whole with exit 1 — not a one-record
success list. -/
theorem validate_all_or_nothing_witness :
    demoBatch2 ≠ [] ∧ validateData demoBatch2 = Proc.exit1 := by
  have hne : demoBatch2 ≠ [] := by
    intro h
    simp [demoBatch2] at h
  have h := validate_all_or_nothing demoBatch2 hne
  refine ⟨hne, h.2.2 ⟨⟨demoRawBadIsCorrect, ?_, ?_⟩, ?_⟩⟩
  · simp [demoBatch2]
  · rfl
  · intro r hr
    simp only [demoBatch2, List.mem_cons, List.mem_singleton,
      List.not_mem_nil, or_false] at hr
    rcases hr with rfl | rfl
    · decide
    · decide

/-- Every record satisfies the dedup predicate against its own stored
row (both user ids equal and non-null, or the stored one null). -/
theorem sqlWhere_self (rec : Canonical) : sqlWhere rec rec = true := by
  unfold sqlWhere
  cases hu : rec.user_id with
  | none => simp [Option.isNone]
  | some u => simp [Option.isNone]

/-- A positive dedup count is exactly the existence of a matching row. -/
theorem dedupCount_pos_iff (tbl : List Canonical) (rec : Canonical) :
    0 < dedupCount tbl rec ↔ ∃ row ∈ tbl, sqlWhere row rec = true := by
  unfold dedupCount
  rw [List.countP_pos_iff]

/-- Loading only appends rows, never removes or rewrites them. -/
theorem loadBatch_extends :
    ∀ (recs tbl : List Canonical) (skipped : Nat),
      ∃ ext, (loadBatch tbl skipped recs).1 = tbl ++ ext
  | [], tbl, _ => ⟨[], by simp [loadBatch]⟩
  | rec :: rest, tbl, skipped => by
    unfold loadBatch
    by_cases h : dedupCount tbl rec = 0
    · rw [if_pos h]
      obtain ⟨ext, he⟩ := loadBatch_extends rest (tbl ++ [rec])
        (skipped + dedupCount tbl rec)
      exact ⟨[rec] ++ ext, by rw [he, List.append_assoc]⟩
    · rw [if_neg h]
      exact loadBatch_extends rest tbl (skipped + dedupCount tbl rec)

/-- After a batch is loaded, every record of the batch has at least one
matching row in the table (its own insertion, or the pre-existing
match that caused it to be skipped). -/
theorem loadBatch_match_all :
    ∀ (recs tbl : List Canonical) (skipped : Nat) (rec : Canonical),
      rec ∈ recs → 0 < dedupCount (loadBatch tbl skipped recs).1 rec
  | [], _, _, _, hr => absurd hr (List.not_mem_nil _)
  | r :: rest, tbl, skipped, rec, hr => by
    unfold loadBatch
    rcases List.mem_cons.mp hr with rfl | hm
    · by_cases h : dedupCount tbl rec = 0
      · rw [if_pos h]
        obtain ⟨ext, he⟩ := loadBatch_extends rest (tbl ++ [rec])
          (skipped + dedupCount tbl rec)
        rw [dedupCount_pos_iff]
        refine ⟨rec, ?_, sqlWhere_self rec⟩
        rw [he]
        simp
      · rw [if_neg h]
        have hpos : 0 < dedupCount tbl rec := Nat.pos_of_ne_zero h
        obtain ⟨row, hrow, hmatch⟩ := (dedupCount_pos_iff tbl rec).mp hpos
        obtain ⟨ext, he⟩ := loadBatch_extends rest tbl
          (skipped + dedupCount tbl rec)
        rw [dedupCount_pos_iff]
        refine ⟨row, ?_, hmatch⟩
        rw [he]
        exact List.mem_append_left ext hrow
    · by_cases h : dedupCount tbl r = 0
      · rw [if_pos h]
        exact loadBatch_match_all rest (tbl ++ [r]) _ rec hm
      · rw [if_neg h]
        exact loadBatch_match_all rest tbl _ rec hm

/-- If every record of the batch already has a matching row, loading
inserts nothing. -/
theorem loadBatch_fst_of_all_matched :
    ∀ (recs tbl : List Canonical) (skipped : Nat),
      (∀ rec ∈ recs, 0 < dedupCount tbl rec) →
      (loadBatch tbl skipped recs).1 = tbl
  | [], _, _, _ => rfl
  | r :: rest, tbl, skipped, h => by
    unfold loadBatch
    have hr := h r (List.mem_cons_self r rest)
    rw [if_neg (Nat.pos_iff_ne_zero.mp hr)]
    exact loadBatch_fst_of_all_matched rest tbl _
      (fun x hx => h x (List.mem_cons_of_mem r hx))

/-- C3: loading is idempotent — whatever table `t1` a successful load
commits, loading the same batch into `t1` again commits exactly `t1`
(same stored-row count, nothing inserted), and on that second call
every record of the batch is matched by the dedup query, hence
skipped. -/
theorem load_idempotent (tbl recs t1 : List Canonical) (s1 : Nat)
    (h : loadDataToDb none tbl recs = Proc.ok (t1, s1)) :
    (∃ s2, loadDataToDb none t1 recs = Proc.ok (t1, s2)) ∧
    ∀ rec ∈ recs, 0 < dedupCount t1 rec := by
  have ht : (loadBatch tbl 0 recs).1 = t1 := by
    unfold loadDataToDb at h
    have h2 : loadBatch tbl 0 recs = (t1, s1) := by simpa using h
    rw [h2]
  have hmatch : ∀ rec ∈ recs, 0 < dedupCount t1 rec := by
    intro rec hr
    rw [← ht]
    exact loadBatch_match_all recs tbl 0 rec hr
  refine ⟨⟨(loadBatch t1 0 recs).2, ?_⟩, hmatch⟩
  unfold loadDataToDb
  have heq : loadBatch t1 0 recs = (t1, (loadBatch t1 0 recs).2) :=
    Prod.ext_iff.mpr ⟨loadBatch_fst_of_all_matched recs t1 0 hmatch, rfl⟩
  rw [heq]

/-- Closed instance: loading the one-record batch into the table it has
just produced changes nothing and matches the record. -/
theorem load_idempotent_witness :
    (∃ s2, loadDataToDb none [demoRec] [demoRec] = Proc.ok ([demoRec], s2)) ∧
    ∀ rec ∈ [demoRec], 0 < dedupCount [demoRec] rec :=
  load_idempotent [] [demoRec] [demoRec] 0 (by rfl)

/-- C6: the date-range gate is enforced before the network request is
built — whenever the two bounds fail the format check, fail to parse
as calendar dates, are out of order, or span more than 6 days, the
call exits with status 1 and no request value is produced; concretely,
start 2024-05-10 with finish 2024-05-01 is rejected, the 7-day-later
finish 2024-05-08 is rejected, and finish 2024-05-06 is accepted with
the request issued. -/
theorem date_range_gate (s f : String) (h : dateGatePass s f = false) :
    getData s f = Proc.exit1 ∧
    getData ("2024-05-10") ("2024-05-01") = Proc.exit1 ∧
    getData ("2024-05-01") ("2024-05-08") = Proc.exit1 ∧
    getData ("2024-05-01") ("2024-05-06") =
      Proc.ok (apiRequest ("2024-05-01") ("2024-05-06")) := by
  refine ⟨?_, by decide, by decide, by decide⟩
  unfold getData
  by_cases hre : (matchesDateRe s && matchesDateRe f) = true
  · rw [if_neg (by simp [hre])]
    cases hs : strptimeYmd s with
    | none => rfl
    | some ds =>
      cases hf : strptimeYmd f with
      | none => rfl
      | some df =>
        unfold dateGatePass at h
        rw [hs, hf] at h
        have h2 : ((matchesDateRe s && matchesDateRe f) &&
            (decide (dateOrdinal ds ≤ dateOrdinal df) &&
             decide (dateOrdinal df - dateOrdinal ds ≤ 6))) = false := h
        rw [hre, Bool.true_and] at h2
        show (if dateOrdinal df < dateOrdinal ds then Proc.exit1
              else if 6 < dateOrdinal df - dateOrdinal ds then Proc.exit1
              else Proc.ok (apiRequest s f)) = Proc.exit1
        rcases Bool.and_eq_false_iff.mp h2 with h3 | h3
        · have hlt : dateOrdinal df < dateOrdinal ds := by
            have h4 := of_decide_eq_false h3
            omega
          rw [if_pos hlt]
        · have hgt : 6 < dateOrdinal df - dateOrdinal ds := by
            have h4 := of_decide_eq_false h3
            omega
          by_cases hlt : dateOrdinal df < dateOrdinal ds
          · rw [if_pos hlt]
          · rw [if_neg hlt, if_pos hgt]
  · have hre2 : (matchesDateRe s && matchesDateRe f) = false := by
      revert hre
      cases (matchesDateRe s && matchesDateRe f) <;> simp
    rw [if_pos (by rw [hre2]; rfl)]

/-- Closed instance: the reversed range is rejected with exit 1 and no
request, the 6-day range is accepted with the request issued. -/
theorem date_range_gate_witness :
    dateGatePass ("2024-05-10") ("2024-05-01") = false ∧
    getData ("2024-05-10") ("2024-05-01") = Proc.exit1 ∧
    getData ("2024-05-01") ("2024-05-06") =
      Proc.ok (apiRequest ("2024-05-01") ("2024-05-06")) := by
  have h := date_range_gate ("2024-05-10") ("2024-05-01") (by decide)
  exact ⟨by decide, h.1, h.2.2.2⟩

/-- Running fold of Python `max`: either nothing beat the initial
candidate (and everything is bounded by it), or the result is an
element of the list that strictly beats the initial candidate and
every earlier element, and that no later element strictly beats. -/
theorem pyMaxRun_cases :
    ∀ (l : List (String × Nat)) (best : String × Nat),
      (pyMaxRun best l = best ∧ ∀ p ∈ l, p.2 ≤ best.2) ∨
      (∃ pre q post, l = pre ++ q :: post ∧ pyMaxRun best l = q ∧
        best.2 < q.2 ∧ (∀ p ∈ pre, p.2 < q.2) ∧ ∀ p ∈ post, p.2 ≤ q.2)
  | [], best => Or.inl ⟨rfl, by simp⟩
  | p :: rest, best => by
    unfold pyMaxRun
    by_cases hp : best.2 < p.2
    · rw [if_pos hp]
      rcases pyMaxRun_cases rest p with ⟨heq, hall⟩ |
        ⟨pre, q, post, hl, hres, hlt, hpre, hpost⟩
      · exact Or.inr ⟨[], p, rest, by simp, heq, hp, by simp, hall⟩
      · refine Or.inr ⟨p :: pre, q, post, by rw [hl]; rfl, hres,
          Nat.lt_trans hp hlt, ?_, hpost⟩
        intro x hx
        rcases List.mem_cons.mp hx with rfl | hm
        · exact hlt
        · exact hpre x hm
    · rw [if_neg hp]
      have hple : p.2 ≤ best.2 := Nat.le_of_not_lt hp
      rcases pyMaxRun_cases rest best with ⟨heq, hall⟩ |
        ⟨pre, q, post, hl, hres, hlt, hpre, hpost⟩
      · refine Or.inl ⟨heq, ?_⟩
        intro x hx
        rcases List.mem_cons.mp hx with rfl | hm
        · exact hple
        · exact hall x hm
      · refine Or.inr ⟨p :: pre, q, post, by rw [hl]; rfl, hres, hlt, ?_, hpost⟩
        intro x hx
        rcases List.mem_cons.mp hx with rfl | hm
        · exact Nat.lt_of_le_of_lt hple hlt
        · exact hpre x hm

/-- Characterization of Python `max(d, key=d.get)` over a tally list:
the returned pair occurs in the list, every entry strictly before it
has a strictly smaller tally (first-encountered maximum wins ties),
and no entry anywhere has a larger tally. -/
theorem pyMaxKey_spec (l : List (String × Nat)) (k : String) (v : Nat)
    (h : pyMaxKey l = some (k, v)) :
    ∃ pre post, l = pre ++ (k, v) :: post ∧ (∀ p ∈ pre, p.2 < v) ∧
      ∀ p ∈ l, p.2 ≤ v := by
  cases l with
  | nil => exact absurd h (by simp [pyMaxKey])
  | cons p rest =>
    have hres : pyMaxRun p rest = (k, v) := by
      simpa [pyMaxKey] using h
    rcases pyMaxRun_cases rest p with ⟨heq, hall⟩ |
      ⟨pre, q, post, hl, hres2, hlt, hpre, hpost⟩
    · rw [heq] at hres
      subst hres
      refine ⟨[], rest, by simp, by simp, ?_⟩
      intro x hx
      rcases List.mem_cons.mp hx with rfl | hm
      · exact Nat.le_refl _
      · exact hall x hm
    · rw [hres] at hres2
      subst hres2
      refine ⟨p :: pre, post, by rw [hl]; rfl, ?_, ?_⟩
      · intro x hx
        rcases List.mem_cons.mp hx with rfl | hm
        · exact hlt
        · exact hpre x hm
      · intro x hx
        rcases List.mem_cons.mp hx with rfl | hm
        · exact Nat.le_of_lt hlt
        · rw [hl] at hm
          rcases List.mem_append.mp hm with hm2 | hm3
          · exact Nat.le_of_lt (hpre x hm2)
          · rcases List.mem_cons.mp hm3 with rfl | hm4
            · exact Nat.le_refl _
            · exact hpost x hm4

/-- C8: whenever the aggregation produces a report, its peak activity
hour is the hour with the maximum tally in the hour-token tally the
loop accumulated (hour tokens extracted from `created_at` of the
identified-user records): the reported hour occurs in the tally, every
hour encountered before it has a strictly smaller tally, and no hour
has a larger one. -/
theorem peak_hour_characterization (data : List Canonical) (r : GsResult)
    (h : calc_for_gsheets data = some r) :
    ∃ cnt ua td, calcLoop data (initCounters, [], []) = some (cnt, ua, td) ∧
      ∃ v pre post, td = pre ++ (r.maxHour, v) :: post ∧
        (∀ p ∈ pre, p.2 < v) ∧ ∀ p ∈ td, p.2 ≤ v := by
  unfold calc_for_gsheets at h
  split at h
  · exact absurd h (by simp)
  · rename_i cnt ua td heq
    refine ⟨cnt, ua, td, heq, ?_⟩
    unfold buildReport at h
    split at h
    · exact absurd h (by simp)
    · split at h
      · exact absurd h (by simp)
      · rename_i best hmax
        split at h
        · exact absurd h (by simp)
        · have hr : r.maxHour = best.1 := by
            rw [← Option.some.inj h]
          obtain ⟨pre, post, hsplit, hpre, hall⟩ :=
            pyMaxKey_spec td best.1 best.2 (by rw [hmax])
          refine ⟨best.2, pre, post, ?_, hpre, hall⟩
          rw [hr]
          exact hsplit

/-- Closed instance: on the three-record demo batch the reported peak
hour `10` heads its tally segment with the maximal count. -/
theorem peak_hour_characterization_witness :
    ∃ cnt ua td,
      calcLoop demoAttempts (initCounters, [], []) = some (cnt, ua, td) ∧
      ∃ v pre post, td = pre ++ (("10"), v) :: post ∧
        (∀ p ∈ pre, p.2 < v) ∧ ∀ p ∈ td, p.2 ≤ v := by
  exact peak_hour_characterization demoAttempts demoReport (by decide)

/-- C9 (amended): for a record that passes the checks preceding the
`passback_params` step and whose `passback_params` is a string, after
quote normalization: a JSON decode failure is a `ValueError`, caught
as a logged per-record rejection; a decoded mapping containing a
non-string non-null value is likewise a rejection; but a decoded value
that is NOT a mapping escapes the validator as an uncaught
`AttributeError` (a crash, not a rejection). -/
theorem passback_parse_outcomes (row : RawRecord) (s : String)
    (h1 : earlyChecksPass row = true)
    (h2 : row.passback_params = some (Json.str s)) :
    (jsonLoads (pyNormalizeQuotes s) = none →
      checkRecord row = CheckResult.reject) ∧
    (∀ kvs, jsonLoads (pyNormalizeQuotes s) = some (Json.obj kvs) →
      (∃ p ∈ kvs, isStrOrNull p.2 = false) →
      checkRecord row = CheckResult.reject) ∧
    (∀ j, jsonLoads (pyNormalizeQuotes s) = some j →
      (∀ kvs, j ≠ Json.obj kvs) → checkRecord row = CheckResult.crash) := by
  unfold earlyChecksPass at h1
  rw [h2] at h1
  cases hu : row.lti_user_id with
  | none => rw [hu] at h1; exact absurd h1 (by simp)
  | some uid =>
  cases hic : row.is_correct with
  | none => rw [hu, hic] at h1; exact absurd h1 (by simp)
  | some ic =>
  cases hat : row.attempt_type with
  | none => rw [hu, hic, hat] at h1; exact absurd h1 (by simp)
  | some att =>
  cases hca : row.created_at with
  | none => rw [hu, hic, hat, hca] at h1; exact absurd h1 (by simp)
  | some ca =>
  rw [hu, hic, hat, hca] at h1
  have h1b : ((uidValue uid).isSome && (isCorrectValue ic).isSome) = true := h1
  rw [Bool.and_eq_true] at h1b
  obtain ⟨hu2, hic2⟩ := h1b
  rw [Option.isSome_iff_exists] at hu2 hic2
  obtain ⟨user_id, huv⟩ := hu2
  obtain ⟨isc, hicv⟩ := hic2
  have hcr : checkRecord row = checkFields uid (Json.str s) ic att ca := by
    unfold checkRecord
    rw [hu, h2, hic, hat, hca]
  have hpb1 : jsonLoads (pyNormalizeQuotes s) = none →
      passbackFields (Json.str s) = PbResult.reject := by
    intro hj
    show passbackOfString s = PbResult.reject
    unfold passbackOfString
    rw [hj]
  have hpb2 : ∀ kvs, jsonLoads (pyNormalizeQuotes s) = some (Json.obj kvs) →
      (∃ p ∈ kvs, isStrOrNull p.2 = false) →
      passbackFields (Json.str s) = PbResult.reject := by
    intro kvs hj hbad
    show passbackOfString s = PbResult.reject
    unfold passbackOfString
    rw [hj]
    have hany : (kvs.any (fun p => !(isStrOrNull p.2))) = true := by
      rw [List.any_eq_true]
      obtain ⟨p, hp, hv⟩ := hbad
      exact ⟨p, hp, by rw [hv]; rfl⟩
    show (if kvs.any (fun p => !(isStrOrNull p.2)) then PbResult.reject
          else PbResult.ok (pbGet kvs ("oauth_consumer_key"))
            (pbGet kvs ("lis_result_sourcedid"))
            (pbGet kvs ("lis_outcome_service_url"))) = PbResult.reject
    simp [hany]
  have hpb3 : ∀ j, jsonLoads (pyNormalizeQuotes s) = some j →
      (∀ kvs, j ≠ Json.obj kvs) →
      passbackFields (Json.str s) = PbResult.crash := by
    intro j hj hne
    show passbackOfString s = PbResult.crash
    unfold passbackOfString
    rw [hj]
    cases j with
    | obj kvs => exact absurd rfl (hne kvs)
    | null => rfl
    | bool b => rfl
    | num n => rfl
    | str s2 => rfl
    | arr es => rfl
  refine ⟨?_, ?_, ?_⟩
  · intro hj
    rw [hcr]
    simp only [checkFields, huv, hicv, hpb1 hj]
  · intro kvs hj hbad
    rw [hcr]
    simp only [checkFields, huv, hicv, hpb2 kvs hj hbad]
  · intro j hj hne
    rw [hcr]
    simp only [checkFields, huv, hicv, hpb3 j hj hne]

/-- Closed instance: the record whose `passback_params` is the string
`42` satisfies the early checks, decodes to the non-mapping JSON
number 42, and crashes the validator. -/
theorem passback_parse_outcomes_witness :
    earlyChecksPass demoRawScalarPb = true ∧
    checkRecord demoRawScalarPb = CheckResult.crash := by
  have h := passback_parse_outcomes demoRawScalarPb ("42") (by decide) rfl
  refine ⟨by decide, h.2.2 (Json.num 42) rfl ?_⟩
  intro kvs hk
  exact Json.noConfusion hk
